import Mathlib

/-!
Shallow embedding of the etcd-play process-orchestration core:
`proc/node_web_local.go` (NodeWebLocal), the remote node client file
(NodeWebRemoteClient), and `proc/proc_cluster.go` (defaultCluster).

Modelling conventions:
- Wall-clock instants (`time.Time`) are integers; `time.Now().Sub(t)` is the
  integer difference `now - t`, and `time.Duration` comparisons are integer
  comparisons.  Lifecycle operations that read the clock take `now : Int`.
- External effects (shell command launch, `syscall.Kill`, `os.RemoveAll`,
  the flag serializers, and the remote agent RPCs) are modelled by an
  explicit `Env` record saying which of them succeed on this invocation.
- A method that in Go mutates the receiver and returns `error` becomes a
  function `Env → ... → State → Option NodeErr × State`: the returned state
  reflects every field write the Go code performed before returning,
  including writes that happen before an error return.
- Go channels are modelled by identifiers (`Nat`); the per-identifier
  stream registry `idToStream` is an association list from stream id to
  channel id, and sends are recorded in logs.
- Go maps are association lists with insert-or-replace semantics
  (`aUpsert`); map iteration order is modelled as registry list order.
-/

/-- The fields of `proc.Flags` that the embedded code reads or writes.
The flags file itself (serialization, `CombineFlags`) is an external
collaborator; only these fields cross into the orchestration core. -/
structure Flags where
  name : String
  dataDir : String
  /-- Host part of the first listen-client URL, as returned by
  `url.Parse(es).Host` in `NodeWebLocal.Endpoint`. -/
  clientURLHost : String
  /-- The first listen-client URL itself (`StatusEndpoint`). -/
  clientURL : String
  /-- `Flags.ExperimentalgRPCAddr`, the remote variant's endpoint. -/
  experimentalgRPCAddr : String
  /-- `Flags.InitialClusterState`; `Restart` rewrites it to "existing". -/
  initialClusterState : String
deriving DecidableEq

/-- Which earlier lifecycle event a cool-down (TooSoon) violation names:
the node's last restart or its last terminate. -/
inductive CoolKind where
  | restarted
  | terminated
deriving DecidableEq

/-- Structured error taxonomy of the lifecycle operations.  Each
constructor stands for one `fmt.Errorf` site (or class of sites) in the
source; `tooSoon` carries the elapsed duration and the required limit
interval exactly as the Go error message interpolates them. -/
inductive NodeErr where
  /-- "%s is already running or requested to restart" / "%s is already active". -/
  | alreadyActive (name : String)
  /-- "%s is already terminated or requested to terminate". -/
  | notActive (name : String)
  /-- Clean invoked while running ("%s is already running or requested to restart"). -/
  | stillActive (name : String)
  /-- "Somebody restarted/terminated the (same) node (only %v ago)! Retry in %v!". -/
  | tooSoon (k : CoolKind) (elapsed limit : Int)
  /-- `Flags.String()` / `Flags.StringSlice()` failed. -/
  | flagError
  /-- `cmd.Start()` failed. -/
  | startFailed
  /-- `syscall.Kill` failed. -/
  | killFailed
  /-- `os.RemoveAll` failed. -/
  | removeFailed
  /-- A remote agent RPC (`Start`/`Restart`/`Stop`/`Cleanup`) failed. -/
  | agentFailed
  /-- "%s does not exist": unknown node name at the cluster layer. -/
  | notFound (name : String)
deriving DecidableEq

/-- Outcomes of the external effects one lifecycle invocation performs. -/
structure Env where
  /-- Whether `nd.Flags.String()` succeeds (local variant). -/
  flagStringOk : Bool
  /-- Whether `cmd.Start()` succeeds (local variant). -/
  cmdStartOk : Bool
  /-- Handle of the freshly created `exec.Cmd` on success. -/
  newCmdId : Nat
  /-- `cmd.Process.Pid` of the freshly launched process. -/
  newPid : Nat
  /-- Whether `syscall.Kill(nd.PID, SIGTERM)` succeeds. -/
  killOk : Bool
  /-- Whether `os.RemoveAll(nd.Flags.DataDir)` succeeds. -/
  removeOk : Bool
  /-- Whether `nd.Flags.StringSlice()` succeeds (remote variant). -/
  flagSliceOk : Bool
  /-- Whether `nd.Agent.Start(...)` succeeds. -/
  agentStartOk : Bool
  /-- Whether `nd.Agent.Restart()` succeeds. -/
  agentRestartOk : Bool
  /-- Whether `nd.Agent.Stop()` succeeds. -/
  agentStopOk : Bool
  /-- Whether `nd.Agent.Cleanup()` succeeds. -/
  agentCleanupOk : Bool
deriving DecidableEq

/-- Runtime state of `NodeWebLocal` (node_web_local.go).  The presentation
fields (`pmu`, `pmaxProcNameLength`, `colorIdx`, `liveLog`, `sharedStream`)
carry no lifecycle state and are omitted; `dataDirExists` models whether
the node's persistent data directory is present on disk. -/
structure NodeWebLocal where
  programPath : String
  flags : Flags
  cmdId : Nat
  pid : Nat
  active : Bool
  limitInterval : Int
  lastTerminated : Int
  lastRestarted : Int
  dataDirExists : Bool
deriving DecidableEq

/-- `NodeWebLocal.IsActive`: reads `nd.active` under the lock. -/
def NodeWebLocal.IsActive (nd : NodeWebLocal) : Bool := nd.active

/-- `NodeWebLocal.Endpoint`: host of the first listen-client URL. -/
def NodeWebLocal.Endpoint (nd : NodeWebLocal) : String := nd.flags.clientURLHost

/-- `NodeWebLocal.StatusEndpoint`: the first listen-client URL. -/
def NodeWebLocal.StatusEndpoint (nd : NodeWebLocal) : String := nd.flags.clientURL

/-- `NodeWebLocal.Start`: fails with AlreadyActive while active; then
serializes the flags and launches the command, either of which may fail;
on success records the command handle and PID and sets `active`.  No
cool-down timestamp is read or written. -/
def NodeWebLocal.Start (env : Env) (nd : NodeWebLocal) :
    Option NodeErr × NodeWebLocal :=
  if nd.active then (some (.alreadyActive nd.flags.name), nd)
  else if !env.flagStringOk then (some .flagError, nd)
  else if !env.cmdStartOk then (some .startFailed, nd)
  else (none, { nd with cmdId := env.newCmdId, pid := env.newPid, active := true })

/-- `NodeWebLocal.Restart`: fails with AlreadyActive while active; then
enforces the cool-down against `lastRestarted` and then `lastTerminated`;
then rewrites `InitialClusterState` to "existing" (a flag write that
persists even if the subsequent launch fails), serializes and launches;
on success records handle and PID, stamps `lastRestarted := now`, and
sets `active`. -/
def NodeWebLocal.Restart (env : Env) (now : Int) (nd : NodeWebLocal) :
    Option NodeErr × NodeWebLocal :=
  if nd.active then (some (.alreadyActive nd.flags.name), nd)
  else if now - nd.lastRestarted < nd.limitInterval then
    (some (.tooSoon .restarted (now - nd.lastRestarted) nd.limitInterval), nd)
  else if now - nd.lastTerminated < nd.limitInterval then
    (some (.tooSoon .terminated (now - nd.lastTerminated) nd.limitInterval), nd)
  else
    let nd1 := { nd with flags := { nd.flags with initialClusterState := "existing" } }
    if !env.flagStringOk then (some .flagError, nd1)
    else if !env.cmdStartOk then (some .startFailed, nd1)
    else (none, { nd1 with cmdId := env.newCmdId, pid := env.newPid,
                           lastRestarted := now, active := true })

/-- `NodeWebLocal.Terminate`: fails with NotActive while inactive; then
enforces the cool-down against `lastTerminated` and then `lastRestarted`;
then signals the tracked PID, which may fail; on success stamps
`lastTerminated := now` and clears `active`. -/
def NodeWebLocal.Terminate (env : Env) (now : Int) (nd : NodeWebLocal) :
    Option NodeErr × NodeWebLocal :=
  if !nd.active then (some (.notActive nd.flags.name), nd)
  else if now - nd.lastTerminated < nd.limitInterval then
    (some (.tooSoon .terminated (now - nd.lastTerminated) nd.limitInterval), nd)
  else if now - nd.lastRestarted < nd.limitInterval then
    (some (.tooSoon .restarted (now - nd.lastRestarted) nd.limitInterval), nd)
  else if !env.killOk then (some .killFailed, nd)
  else (none, { nd with lastTerminated := now, active := false })

/-- `NodeWebLocal.Clean`: the source stamps `nd.lastTerminated = time.Now()`
under the lock BEFORE checking `active`, so the stamp persists on every
path, including the StillActive error return; then fails with StillActive
while running, otherwise removes the data directory (which may fail). -/
def NodeWebLocal.Clean (env : Env) (now : Int) (nd : NodeWebLocal) :
    Option NodeErr × NodeWebLocal :=
  let nd1 := { nd with lastTerminated := now }
  if nd1.active then (some (.stillActive nd.flags.name), nd1)
  else if !env.removeOk then (some .removeFailed, nd1)
  else (none, { nd1 with dataDirExists := false })

/-- Runtime state of `NodeWebRemoteClient` (remote node client file).  The
struct holds only the flags, the opaque agent handle, and `active`: it has
no cool-down fields and no timestamps. -/
structure NodeWebRemoteClient where
  flags : Flags
  active : Bool
deriving DecidableEq

/-- `NodeWebRemoteClient.IsActive`: reads `nd.active` under the lock. -/
def NodeWebRemoteClient.IsActive (nd : NodeWebRemoteClient) : Bool := nd.active

/-- `NodeWebRemoteClient.Endpoint`: returns `Flags.ExperimentalgRPCAddr`. -/
def NodeWebRemoteClient.Endpoint (nd : NodeWebRemoteClient) : String :=
  nd.flags.experimentalgRPCAddr

/-- `NodeWebRemoteClient.StatusEndpoint`: first listen-client URL. -/
def NodeWebRemoteClient.StatusEndpoint (nd : NodeWebRemoteClient) : String :=
  nd.flags.clientURL

/-- `NodeWebRemoteClient.Start`: AlreadyActive while active; then flag
serialization and the agent Start RPC, either of which may fail; on
success sets `active`. -/
def NodeWebRemoteClient.Start (env : Env) (nd : NodeWebRemoteClient) :
    Option NodeErr × NodeWebRemoteClient :=
  if nd.active then (some (.alreadyActive nd.flags.name), nd)
  else if !env.flagSliceOk then (some .flagError, nd)
  else if !env.agentStartOk then (some .agentFailed, nd)
  else (none, { nd with active := true })

/-- `NodeWebRemoteClient.Restart`: AlreadyActive while active; then the
agent Restart RPC; on success sets `active`.  There is NO cool-down
check in this variant. -/
def NodeWebRemoteClient.Restart (env : Env) (nd : NodeWebRemoteClient) :
    Option NodeErr × NodeWebRemoteClient :=
  if nd.active then (some (.alreadyActive nd.flags.name), nd)
  else if !env.agentRestartOk then (some .agentFailed, nd)
  else (none, { nd with active := true })

/-- `NodeWebRemoteClient.Terminate`: NotActive while inactive; then the
agent Stop RPC; on success clears `active`.  There is NO cool-down
check in this variant. -/
def NodeWebRemoteClient.Terminate (env : Env) (nd : NodeWebRemoteClient) :
    Option NodeErr × NodeWebRemoteClient :=
  if !nd.active then (some (.notActive nd.flags.name), nd)
  else if !env.agentStopOk then (some .agentFailed, nd)
  else (none, { nd with active := false })

/-- `NodeWebRemoteClient.Clean`: delegates straight to the agent Cleanup
RPC.  There is NO active-state precondition check in this variant. -/
def NodeWebRemoteClient.Clean (env : Env) (nd : NodeWebRemoteClient) :
    Option NodeErr × NodeWebRemoteClient :=
  if !env.agentCleanupOk then (some .agentFailed, nd)
  else (none, nd)

/-- The `proc.Node` interface, as the closed set of the two web variants
the spec's core covers (the terminal variant's file is outside the
orchestration core). -/
inductive Node where
  | webLocal (nd : NodeWebLocal)
  | webRemote (nd : NodeWebRemoteClient)
deriving DecidableEq

/-- Interface dispatch of `IsActive`. -/
def Node.IsActive : Node → Bool
  | .webLocal nd => nd.IsActive
  | .webRemote nd => nd.IsActive

/-- Interface dispatch of `Endpoint`. -/
def Node.Endpoint : Node → String
  | .webLocal nd => nd.Endpoint
  | .webRemote nd => nd.Endpoint

/-- Interface dispatch of `StatusEndpoint`. -/
def Node.StatusEndpoint : Node → String
  | .webLocal nd => nd.StatusEndpoint
  | .webRemote nd => nd.StatusEndpoint

/-- Interface dispatch of `Start` (the remote variant ignores the clock). -/
def Node.Start (env : Env) (_now : Int) : Node → Option NodeErr × Node
  | .webLocal nd =>
      let r := NodeWebLocal.Start env nd
      (r.1, .webLocal r.2)
  | .webRemote nd =>
      let r := NodeWebRemoteClient.Start env nd
      (r.1, .webRemote r.2)

/-- Interface dispatch of `Restart`. -/
def Node.Restart (env : Env) (now : Int) : Node → Option NodeErr × Node
  | .webLocal nd =>
      let r := NodeWebLocal.Restart env now nd
      (r.1, .webLocal r.2)
  | .webRemote nd =>
      let r := NodeWebRemoteClient.Restart env nd
      (r.1, .webRemote r.2)

/-- Interface dispatch of `Terminate`. -/
def Node.Terminate (env : Env) (now : Int) : Node → Option NodeErr × Node
  | .webLocal nd =>
      let r := NodeWebLocal.Terminate env now nd
      (r.1, .webLocal r.2)
  | .webRemote nd =>
      let r := NodeWebRemoteClient.Terminate env nd
      (r.1, .webRemote r.2)

/-- Interface dispatch of `Clean`. -/
def Node.Clean (env : Env) (now : Int) : Node → Option NodeErr × Node
  | .webLocal nd =>
      let r := NodeWebLocal.Clean env now nd
      (r.1, .webLocal r.2)
  | .webRemote nd =>
      let r := NodeWebRemoteClient.Clean env nd
      (r.1, .webRemote r.2)

/-- `proc.ServerStatus`: the per-node snapshot returned by `Status`. -/
structure ServerStatus where
  Name : String
  ID : String
  Endpoint : String
  State : String
  NumberOfKeys : Nat
  Hash : Nat
deriving DecidableEq

/-- The `emptyStat` template of proc_cluster.go: the "unreachable"
placeholder before the name and endpoint are filled in. -/
def emptyStat : ServerStatus :=
  { Name := "", ID := "unknown", Endpoint := "unknown",
    State := "unreachable", NumberOfKeys := 0, Hash := 0 }

/-- Outcome of one node's status probe (`getStatus`): either some
sub-query failed or timed out (carrying the error text), or all three
sequential sub-queries came back, carrying the member-list answer
(member id, leadership, whether a member with the node's name was found),
the content hash, and the key count. -/
inductive ProbeOutcome where
  | fail (msg : String)
  | ok (id : String) (isLeader : Bool) (found : Bool) (hash keys : Nat)
deriving DecidableEq

/-- Whether a probe outcome is a failure. -/
def ProbeOutcome.isFail : ProbeOutcome → Bool
  | .fail _ => true
  | .ok _ _ _ _ _ => false

/-- The snapshot a successful probe sends: `emptyStat` with the node's
name and gRPC endpoint always stamped, and ID/State filled only when the
member list contained a member with this name. -/
def mkStat (name grpcEndpoint id : String) (isLeader found : Bool)
    (hash keys : Nat) : ServerStatus :=
  { Name := name, Endpoint := grpcEndpoint,
    ID := if found then id else emptyStat.ID,
    State := if found then (if isLeader then "Leader" else "Follower")
             else emptyStat.State,
    Hash := hash, NumberOfKeys := keys }

/-- `getStatus` (proc_cluster.go): any sub-query failure aborts the probe
with that error; otherwise the probe reports `mkStat`.  The result is
what the probe sends on the success channel, keyed by its `Name`. -/
def getStatus (name grpcEndpoint : String) : ProbeOutcome → Except String ServerStatus
  | .fail msg => .error msg
  | .ok id isLeader found hash keys =>
      .ok (mkStat name grpcEndpoint id isLeader found hash keys)

/-- Association-list lookup with Go-map key semantics. -/
def aLookup {β : Type} (k : String) : List (String × β) → Option β
  | [] => none
  | (k', v) :: rest => if k' = k then some v else aLookup k rest

/-- Association-list insert-or-replace: Go's `m[k] = v`. -/
def aUpsert {β : Type} (k : String) (v : β) : List (String × β) → List (String × β)
  | [] => [(k, v)]
  | (k', v') :: rest =>
      if k' = k then (k, v) :: rest else (k', v') :: aUpsert k v rest

/-- State of `defaultCluster`: the name-to-node registry, the shared
bounded log channel (its enqueued lines), the stream-id-to-channel
registry with a fresh-channel counter, and the lines sent to named
channels. -/
structure Cluster where
  nodes : List (String × Node)
  sharedStream : List String
  idToStream : List (String × Nat)
  nextChan : Nat
  chanLog : List (Nat × String)
deriving DecidableEq

/-- Replace the state of the named node in the registry (Go mutates the
node in place through its pointer). -/
def updateNode (name : String) (nd : Node) : List (String × Node) → List (String × Node)
  | [] => []
  | (n, v) :: rest =>
      if n = name then (n, nd) :: rest else (n, v) :: updateNode name nd rest

/-- `defaultCluster.Stream`: returns the channel already registered for
this stream id, or lazily creates a fresh bounded channel, registers it,
and returns it.  Nothing is ever deleted from `idToStream`. -/
def Cluster.Stream (c : Cluster) (streamID : String) : Nat × Cluster :=
  match aLookup streamID c.idToStream with
  | some ch => (ch, c)
  | none =>
      let ch := c.nextChan
      (ch, { c with idToStream := aUpsert streamID ch c.idToStream,
                    nextChan := ch + 1 })

/-- One send to a named stream: resolve the channel via `Stream`, then
enqueue the message on it. -/
def sendToStream (c : Cluster) (streamID msg : String) : Cluster :=
  let r := c.Stream streamID
  { r.2 with chanLog := r.2.chanLog ++ [(r.1, msg)] }

/-- `defaultCluster.Write`: NotFound for an unknown name; for a local web
node an empty stream-id list sends to the shared stream and otherwise
each named stream receives the message; a remote web node only receives
named-stream sends. -/
def Cluster.Write (c : Cluster) (name msg : String) (streamIDs : List String) :
    Option NodeErr × Cluster :=
  match aLookup name c.nodes with
  | none => (some (.notFound name), c)
  | some nd =>
    match nd with
    | .webLocal _ =>
        if streamIDs.isEmpty then
          (none, { c with sharedStream := c.sharedStream ++ [msg] })
        else
          (none, streamIDs.foldl (fun acc sid => sendToStream acc sid msg) c)
    | .webRemote _ =>
        if streamIDs.isEmpty then (none, c)
        else (none, streamIDs.foldl (fun acc sid => sendToStream acc sid msg) c)

/-- `defaultCluster.Start`: look up by name, NotFound if absent, else
delegate to the node and store its new state. -/
def Cluster.Start (c : Cluster) (env : String → Env) (now : Int) (name : String) :
    Option NodeErr × Cluster :=
  match aLookup name c.nodes with
  | none => (some (.notFound name), c)
  | some nd =>
      let r := Node.Start (env name) now nd
      (r.1, { c with nodes := updateNode name r.2 c.nodes })

/-- `defaultCluster.Restart`: look up by name, NotFound if absent, else
delegate. -/
def Cluster.Restart (c : Cluster) (env : String → Env) (now : Int) (name : String) :
    Option NodeErr × Cluster :=
  match aLookup name c.nodes with
  | none => (some (.notFound name), c)
  | some nd =>
      let r := Node.Restart (env name) now nd
      (r.1, { c with nodes := updateNode name r.2 c.nodes })

/-- `defaultCluster.Terminate`: look up by name, NotFound if absent, else
delegate. -/
def Cluster.Terminate (c : Cluster) (env : String → Env) (now : Int) (name : String) :
    Option NodeErr × Cluster :=
  match aLookup name c.nodes with
  | none => (some (.notFound name), c)
  | some nd =>
      let r := Node.Terminate (env name) now nd
      (r.1, { c with nodes := updateNode name r.2 c.nodes })

/-- `defaultCluster.Clean`: look up by name, NotFound if absent, else
delegate. -/
def Cluster.Clean (c : Cluster) (env : String → Env) (now : Int) (name : String) :
    Option NodeErr × Cluster :=
  match aLookup name c.nodes with
  | none => (some (.notFound name), c)
  | some nd =>
      let r := Node.Clean (env name) now nd
      (r.1, { c with nodes := updateNode name r.2 c.nodes })

/-- The sequential restart loop of `defaultCluster.Revive`: restart each
node in turn, keeping every state change already made and returning on
the first restart error, with the remaining nodes untouched. -/
def reviveLoop (env : String → Env) (now : Int) :
    List (String × Node) → Option NodeErr × List (String × Node)
  | [] => (none, [])
  | (nm, nd) :: rest =>
      let r := Node.Restart (env nm) now nd
      match r.1 with
      | some e => (some e, (nm, r.2) :: rest)
      | none =>
          let r' := reviveLoop env now rest
          (r'.1, (nm, r.2) :: r'.2)

/-- `defaultCluster.Revive`: a no-op returning success when any node is
active; otherwise restarts all nodes sequentially, short-circuiting on
the first error. -/
def Cluster.Revive (c : Cluster) (env : String → Env) (now : Int) :
    Option NodeErr × Cluster :=
  if c.nodes.any (fun p => p.2.IsActive) then (none, c)
  else
    let r := reviveLoop env now c.nodes
    (r.1, { c with nodes := r.2 })

/-- One shutdown worker: `Terminate` then `Clean` on the node, with both
errors only logged (dropped here; `log.Printf` does not reach the
streams). -/
def shutdownNode (env : Env) (now : Int) (nd : Node) : Node :=
  (Node.Clean env now (Node.Terminate env now nd).2).2

/-- `defaultCluster.Shutdown`: nothing to do for an empty registry;
otherwise every node's terminate-and-clean worker runs (the workers are
concurrent but each touches only its own node, so the fan-in barrier
makes the result their pointwise application), and the call always
returns success. -/
def Cluster.Shutdown (c : Cluster) (env : String → Env) (now : Int) :
    Option NodeErr × Cluster :=
  if c.nodes.isEmpty then (none, c)
  else
    (none, { c with nodes := c.nodes.map (fun p => (p.1, shutdownNode (env p.1) now p.2)) })

/-- `defaultCluster.Endpoints`: the endpoints of nodes that are active
and have a non-empty endpoint string, sorted lexicographically, plus the
full name-to-endpoint mapping over every registered node. -/
def Cluster.Endpoints (c : Cluster) : List String × List (String × String) :=
  let endpoints :=
    (c.nodes.filter (fun p => (p.2.Endpoint != "") && p.2.IsActive)).map
      (fun p => p.2.Endpoint)
  (endpoints.insertionSort (· ≤ ·),
   c.nodes.map (fun p => (p.1, p.2.Endpoint)))

/-- The fan-in loop of `defaultCluster.Status`: one signal per launched
probe, collected here in registry order (the Go channel arrival order is
immaterial to the map contents; the error slot keeps the last error
seen). -/
def statusLoop (probes : String → ProbeOutcome) :
    List (String × String) → List (String × ServerStatus) → Option String →
    List (String × ServerStatus) × Option String
  | [], acc, err => (acc, err)
  | (nm, ep) :: rest, acc, err =>
      match getStatus nm ep (probes nm) with
      | .ok s => statusLoop probes rest (aUpsert s.Name s acc) err
      | .error e => statusLoop probes rest acc (some e)

/-- The backfill loop of `defaultCluster.Status`: every requested name
that is missing from the collected map receives the "unreachable"
placeholder carrying its name and endpoint. -/
def backfill : List (String × String) → List (String × ServerStatus) →
    List (String × ServerStatus)
  | [], acc => acc
  | (nm, ep) :: rest, acc =>
      match aLookup nm acc with
      | some _ => backfill rest acc
      | none => backfill rest (aUpsert nm { emptyStat with Name := nm, Endpoint := ep } acc)

/-- `defaultCluster.Status`: probe every entry of the full
name-to-endpoint mapping, fan in the per-probe results, and backfill
placeholders so the returned map is complete; the last observed probe
error (possibly none) is returned alongside. -/
def Cluster.Status (c : Cluster) (probes : String → ProbeOutcome) :
    List (String × ServerStatus) × Option String :=
  let nameToEndpoint := c.Endpoints.2
  let r := statusLoop probes nameToEndpoint [] none
  (backfill nameToEndpoint r.1, r.2)

/-- The `op` options record filled in by `OpOption`s in `NewCluster`. -/
structure Op where
  liveLog : Bool
  limitInterval : Int
  agentEndpoints : List String
deriving DecidableEq

/-- Construction-time effects of `NewCluster`: whether `CombineFlags`
(an external collaborator validating the configuration set) accepts, and
whether `client.NewAgent` succeeds for a given agent endpoint. -/
structure NewClusterEnv where
  combineOk : Bool
  newAgentOk : String → Bool

/-- The node-type selector of `NewCluster`, restricted to the two web
variants the orchestration core covers. -/
inductive NodeType where
  | webLocal
  | webRemote
deriving DecidableEq

/-- Node construction of `NewCluster`'s per-flag loop for one member. -/
def buildNode (opt : NodeType) (programPath : String) (o : Op) (f : Flags)
    (agentEndpoint : String) (env : NewClusterEnv) : Except String Node :=
  match opt with
  | .webLocal =>
      .ok (.webLocal
        { programPath := programPath, flags := f, cmdId := 0, pid := 0,
          active := false, limitInterval := o.limitInterval,
          lastTerminated := 0, lastRestarted := 0, dataDirExists := true })
  | .webRemote =>
      if o.agentEndpoints.isEmpty then .error "no agent endpoints found"
      else if !env.newAgentOk agentEndpoint then .error "NewAgent failed"
      else .ok (.webRemote { flags := f, active := false })

/-- The per-flag construction loop of `NewCluster`, pairing each flag
with its agent endpoint by position. -/
def buildNodes (opt : NodeType) (programPath : String) (o : Op)
    (env : NewClusterEnv) : List Flags → List String →
    Except String (List (String × Node))
  | [], _ => .ok []
  | f :: fs, eps =>
      match buildNode opt programPath o f (eps.headD "") env with
      | .error e => .error e
      | .ok nd =>
          match buildNodes opt programPath o env fs (eps.drop 1) with
          | .error e => .error e
          | .ok rest => .ok ((f.name, nd) :: rest)

/-- `NewCluster`: an empty flag list returns a nil cluster AND a nil
error, before options are applied, the agent-endpoint count is checked,
`CombineFlags` validates anything, or any node or channel is created.
Otherwise options are folded over the defaults, the agent-endpoint count
is checked for the remote variant, the configuration set is validated,
and one node per flag is built into a fresh registry. -/
def NewCluster (opt : NodeType) (programPath : String) (fs : List Flags)
    (opts : List (Op → Op)) (env : NewClusterEnv) :
    Except String (Option Cluster) :=
  if fs.isEmpty then .ok none
  else
    let o := opts.foldl (fun acc f => f acc)
      { liveLog := false, limitInterval := 0, agentEndpoints := [] }
    if !o.agentEndpoints.isEmpty ∧ opt = .webRemote ∧
        o.agentEndpoints.length ≠ fs.length then
      .error "agent endpoints must be the same size of flags"
    else if !env.combineOk then .error "CombineFlags failed"
    else
      match buildNodes opt programPath o env fs o.agentEndpoints with
      | .error e => .error e
      | .ok nodes =>
          .ok (some { nodes := nodes, sharedStream := [], idToStream := [],
                      nextChan := 0, chanLog := [] })

/-- Concrete per-member configuration used by witnesses. -/
def flags1 : Flags :=
  { name := "etcd1", dataDir := "/tmp/etcd1.data",
    clientURLHost := "localhost:11119", clientURL := "http://localhost:11119",
    experimentalgRPCAddr := "localhost:12119", initialClusterState := "new" }

/-- Environment in which every external effect succeeds. -/
def envOk : Env :=
  { flagStringOk := true, cmdStartOk := true, newCmdId := 1, newPid := 101,
    killOk := true, removeOk := true, flagSliceOk := true,
    agentStartOk := true, agentRestartOk := true, agentStopOk := true,
    agentCleanupOk := true }

/-- An active local node with both cool-down stamps at 0 and a 100-unit
limit interval. -/
def ndLocalActive : NodeWebLocal :=
  { programPath := "etcd", flags := flags1, cmdId := 7, pid := 101,
    active := true, limitInterval := 100, lastTerminated := 0,
    lastRestarted := 0, dataDirExists := true }

/-- The same local node, inactive. -/
def ndLocalIdle : NodeWebLocal := { ndLocalActive with active := false }

/-- An active remote node. -/
def ndRemoteActive : NodeWebRemoteClient := { flags := flags1, active := true }

/-- Second concrete per-member configuration. -/
def flags2 : Flags :=
  { name := "etcd2", dataDir := "/tmp/etcd2.data",
    clientURLHost := "localhost:21119", clientURL := "http://localhost:21119",
    experimentalgRPCAddr := "localhost:22119", initialClusterState := "new" }

/-- A fresh cluster state over the given registry, as `NewCluster`
builds it. -/
def mkCluster (nodes : List (String × Node)) : Cluster :=
  { nodes := nodes, sharedStream := [], idToStream := [], nextChan := 0,
    chanLog := [] }

/-- Two-node fully inactive remote cluster. -/
def clusterIdle : Cluster :=
  mkCluster [("etcd1", .webRemote { flags := flags1, active := false }),
             ("etcd2", .webRemote { flags := flags2, active := false })]

/-- Two-node cluster with one active local node. -/
def clusterLive : Cluster :=
  mkCluster [("etcd1", .webLocal ndLocalActive),
             ("etcd2", .webRemote { flags := flags2, active := false })]

/-- Per-node environment in which every external effect succeeds. -/
def envAll : String → Env := fun _ => envOk

/-- The concrete cluster after its first `Stream "user1"` call. -/
def clusterStreamed : Cluster := (clusterLive.Stream "user1").2

/-- The map entry one probe contributes on success: keyed by the node's
name (the probe always stamps `Name := name`), absent on failure. -/
def okEntry (probes : String → ProbeOutcome) (x : String × String) :
    Option (String × ServerStatus) :=
  match probes x.1 with
  | .fail _ => none
  | .ok id isLeader found hash keys =>
      some (x.1, mkStat x.1 x.2 id isLeader found hash keys)

/-- The error slot of the fan-in loop: overwritten by each failing
probe in processing order, so it ends as the last observed error. -/
def lastErrAux (probes : String → ProbeOutcome) :
    List (String × String) → Option String → Option String
  | [], err => err
  | x :: rest, err =>
      match probes x.1 with
      | .fail e => lastErrAux probes rest (some e)
      | .ok _ _ _ _ _ => lastErrAux probes rest err

/-- A probe outcome function: the first node answers, every other node
times out. -/
def probesMixed : String → ProbeOutcome := fun nm =>
  if nm = "etcd1" then .ok "8e9e05c52164694d" true true 42 3
  else .fail "timed out"

/-- C1 counterexample.  The claim asserts the cool-down for BOTH node
variants, but `NodeWebRemoteClient` carries no cool-down state and its
`Restart`/`Terminate` perform no cool-down check: a successful Terminate
followed by an immediate Restart (elapsed 0, which is less than any
positive limit interval D) succeeds instead of failing with TooSoon. -/
theorem remote_cooldown_counterexample :
    (NodeWebRemoteClient.Terminate envOk ndRemoteActive).1 = none ∧
    (NodeWebRemoteClient.Restart envOk
        (NodeWebRemoteClient.Terminate envOk ndRemoteActive).2).1 = none ∧
    (NodeWebRemoteClient.Restart envOk
        (NodeWebRemoteClient.Terminate envOk ndRemoteActive).2).2.active = true :=
  ⟨rfl, rfl, rfl⟩

/-- C1 (amended to the local variant): `NodeWebLocal.Restart` on an
inactive node fails with TooSoon naming the elapsed gap and the limit
interval whenever less than `limitInterval` has elapsed since the last
restart, or (that gap being large enough) since the last terminate;
symmetrically for `Terminate` on an active node; and when both gaps are
at least `limitInterval` neither operation can fail with TooSoon. -/
theorem local_cooldown (env : Env) (now : Int) (nd : NodeWebLocal) :
    (nd.active = false → now - nd.lastRestarted < nd.limitInterval →
      NodeWebLocal.Restart env now nd =
        (some (.tooSoon .restarted (now - nd.lastRestarted) nd.limitInterval), nd)) ∧
    (nd.active = false → nd.limitInterval ≤ now - nd.lastRestarted →
      now - nd.lastTerminated < nd.limitInterval →
      NodeWebLocal.Restart env now nd =
        (some (.tooSoon .terminated (now - nd.lastTerminated) nd.limitInterval), nd)) ∧
    (nd.active = true → now - nd.lastTerminated < nd.limitInterval →
      NodeWebLocal.Terminate env now nd =
        (some (.tooSoon .terminated (now - nd.lastTerminated) nd.limitInterval), nd)) ∧
    (nd.active = true → nd.limitInterval ≤ now - nd.lastTerminated →
      now - nd.lastRestarted < nd.limitInterval →
      NodeWebLocal.Terminate env now nd =
        (some (.tooSoon .restarted (now - nd.lastRestarted) nd.limitInterval), nd)) ∧
    (nd.limitInterval ≤ now - nd.lastRestarted →
      nd.limitInterval ≤ now - nd.lastTerminated →
      (∀ k e l, (NodeWebLocal.Restart env now nd).1 ≠ some (.tooSoon k e l)) ∧
      (∀ k e l, (NodeWebLocal.Terminate env now nd).1 ≠ some (.tooSoon k e l))) := by
  refine ⟨?_, ?_, ?_, ?_, ?_⟩
  · intro ha hr
    simp [NodeWebLocal.Restart, ha, hr]
  · intro ha hr ht
    simp [NodeWebLocal.Restart, ha, not_lt.mpr hr, ht]
  · intro ha ht
    simp [NodeWebLocal.Terminate, ha, ht]
  · intro ha ht hr
    simp [NodeWebLocal.Terminate, ha, not_lt.mpr ht, hr]
  · intro hr ht
    constructor
    · intro k e l
      cases ha : nd.active with
      | true => simp [NodeWebLocal.Restart, ha]
      | false =>
        cases hf : env.flagStringOk <;> cases hc : env.cmdStartOk <;>
          simp [NodeWebLocal.Restart, ha, not_lt.mpr hr, not_lt.mpr ht, hf, hc]
    · intro k e l
      cases ha : nd.active with
      | false => simp [NodeWebLocal.Terminate, ha]
      | true =>
        cases hk : env.killOk <;>
          simp [NodeWebLocal.Terminate, ha, not_lt.mpr hr, not_lt.mpr ht, hk]

/-- C1 witness: on the concrete idle node with limit interval 100, a
restart at instant 50 (elapsed 50 since both events) fails with TooSoon
carrying 50 and 100, and at instant 250 (elapsed 250) no TooSoon error
is possible. -/
theorem local_cooldown_witness :
    NodeWebLocal.Restart envOk 50 ndLocalIdle =
      (some (.tooSoon .restarted (50 - ndLocalIdle.lastRestarted)
         ndLocalIdle.limitInterval), ndLocalIdle) ∧
    (∀ k e l, (NodeWebLocal.Restart envOk 250 ndLocalIdle).1 ≠
      some (.tooSoon k e l)) :=
  ⟨(local_cooldown envOk 50 ndLocalIdle).1 rfl (by decide),
   ((local_cooldown envOk 250 ndLocalIdle).2.2.2.2 (by decide) (by decide)).1⟩

/-- C3 counterexample.  The claim asserts the StillActive guard on Clean
for BOTH variants, but `NodeWebRemoteClient.Clean` performs no active
check: on an active remote node it succeeds. -/
theorem remote_clean_counterexample :
    ndRemoteActive.active = true ∧
    (NodeWebRemoteClient.Clean envOk ndRemoteActive).1 = none :=
  ⟨rfl, rfl⟩

/-- C3 (amended): the local variant's Clean fails with StillActive while
the node is active and leaves the data directory in place, and the
AlreadyActive / NotActive duplicate and no-op policy on Start, Restart
and Terminate is identical between the local and remote variants; the
remote variant's Clean, however, has no StillActive guard. -/
theorem clean_still_active_policy (env : Env) (now : Int) :
    (∀ nd : NodeWebLocal, nd.active = true →
      (NodeWebLocal.Clean env now nd).1 = some (.stillActive nd.flags.name) ∧
      (NodeWebLocal.Clean env now nd).2.dataDirExists = nd.dataDirExists) ∧
    (∀ nd : NodeWebLocal, nd.active = true →
      NodeWebLocal.Start env nd = (some (.alreadyActive nd.flags.name), nd)) ∧
    (∀ nd : NodeWebRemoteClient, nd.active = true →
      NodeWebRemoteClient.Start env nd = (some (.alreadyActive nd.flags.name), nd)) ∧
    (∀ nd : NodeWebLocal, nd.active = true →
      NodeWebLocal.Restart env now nd = (some (.alreadyActive nd.flags.name), nd)) ∧
    (∀ nd : NodeWebRemoteClient, nd.active = true →
      NodeWebRemoteClient.Restart env nd = (some (.alreadyActive nd.flags.name), nd)) ∧
    (∀ nd : NodeWebLocal, nd.active = false →
      NodeWebLocal.Terminate env now nd = (some (.notActive nd.flags.name), nd)) ∧
    (∀ nd : NodeWebRemoteClient, nd.active = false →
      NodeWebRemoteClient.Terminate env nd = (some (.notActive nd.flags.name), nd)) := by
  refine ⟨?_, ?_, ?_, ?_, ?_, ?_, ?_⟩ <;> intro nd ha
  · exact ⟨by simp [NodeWebLocal.Clean, ha], by simp [NodeWebLocal.Clean, ha]⟩
  · simp [NodeWebLocal.Start, ha]
  · simp [NodeWebRemoteClient.Start, ha]
  · simp [NodeWebLocal.Restart, ha]
  · simp [NodeWebRemoteClient.Restart, ha]
  · simp [NodeWebLocal.Terminate, ha]
  · simp [NodeWebRemoteClient.Terminate, ha]

/-- C3 witness: the concrete active local node's Clean fails with
StillActive and the data directory stays present; the concrete active
remote node's Start fails with AlreadyActive. -/
theorem clean_still_active_policy_witness :
    (NodeWebLocal.Clean envOk 5 ndLocalActive).1 =
      some (.stillActive ndLocalActive.flags.name) ∧
    (NodeWebLocal.Clean envOk 5 ndLocalActive).2.dataDirExists =
      ndLocalActive.dataDirExists ∧
    NodeWebRemoteClient.Start envOk ndRemoteActive =
      (some (.alreadyActive ndRemoteActive.flags.name), ndRemoteActive) :=
  ⟨((clean_still_active_policy envOk 5).1 ndLocalActive rfl).1,
   ((clean_still_active_policy envOk 5).1 ndLocalActive rfl).2,
   (clean_still_active_policy envOk 5).2.2.1 ndRemoteActive rfl⟩

/-- C4 counterexample.  The claim says the cool-down timestamps are left
unchanged on EVERY error return, but `NodeWebLocal.Clean` stamps
`lastTerminated` before its active check: on an active node it returns
the StillActive error AND has already moved `lastTerminated` from 0 to
the current instant 5. -/
theorem clean_timestamp_counterexample :
    (NodeWebLocal.Clean envOk 5 ndLocalActive).1.isSome = true ∧
    ndLocalActive.lastTerminated = 0 ∧
    (NodeWebLocal.Clean envOk 5 ndLocalActive).2.lastTerminated = 5 :=
  ⟨rfl, rfl, rfl⟩

/-- C4 (amended): for Start, Restart and Terminate of the local variant
the cool-down timestamps are updated only on success — every error
return leaves both unchanged (Start never touches them at all) — while
Clean unconditionally stamps `lastTerminated` with the current instant,
on success and on every error return alike, leaving `lastRestarted`
unchanged. -/
theorem timestamps_updated_only_on_success (env : Env) (now : Int) (nd : NodeWebLocal) :
    ((NodeWebLocal.Start env nd).2.lastRestarted = nd.lastRestarted ∧
     (NodeWebLocal.Start env nd).2.lastTerminated = nd.lastTerminated) ∧
    ((NodeWebLocal.Restart env now nd).1.isSome = true →
      (NodeWebLocal.Restart env now nd).2.lastRestarted = nd.lastRestarted ∧
      (NodeWebLocal.Restart env now nd).2.lastTerminated = nd.lastTerminated) ∧
    ((NodeWebLocal.Terminate env now nd).1.isSome = true →
      (NodeWebLocal.Terminate env now nd).2.lastRestarted = nd.lastRestarted ∧
      (NodeWebLocal.Terminate env now nd).2.lastTerminated = nd.lastTerminated) ∧
    ((NodeWebLocal.Clean env now nd).2.lastTerminated = now ∧
     (NodeWebLocal.Clean env now nd).2.lastRestarted = nd.lastRestarted) := by
  refine ⟨?_, ?_, ?_, ?_⟩
  · unfold NodeWebLocal.Start
    split
    · exact ⟨rfl, rfl⟩
    · split
      · exact ⟨rfl, rfl⟩
      · split
        · exact ⟨rfl, rfl⟩
        · exact ⟨rfl, rfl⟩
  · unfold NodeWebLocal.Restart
    split
    · exact fun _ => ⟨rfl, rfl⟩
    · split
      · exact fun _ => ⟨rfl, rfl⟩
      · split
        · exact fun _ => ⟨rfl, rfl⟩
        · split
          · exact fun _ => ⟨rfl, rfl⟩
          · split
            · exact fun _ => ⟨rfl, rfl⟩
            · intro h
              simp at h
  · unfold NodeWebLocal.Terminate
    split
    · exact fun _ => ⟨rfl, rfl⟩
    · split
      · exact fun _ => ⟨rfl, rfl⟩
      · split
        · exact fun _ => ⟨rfl, rfl⟩
        · split
          · exact fun _ => ⟨rfl, rfl⟩
          · intro h
            simp at h
  · cases ha : nd.active <;> cases hr : env.removeOk <;>
      simp [NodeWebLocal.Clean, ha, hr]

/-- C4 witness: on the concrete idle node, a restart at instant 50 fails
(cool-down) and leaves both timestamps at their old values; Clean at
instant 7 stamps `lastTerminated := 7`. -/
theorem timestamps_updated_only_on_success_witness :
    ((NodeWebLocal.Restart envOk 50 ndLocalIdle).2.lastRestarted =
        ndLocalIdle.lastRestarted ∧
     (NodeWebLocal.Restart envOk 50 ndLocalIdle).2.lastTerminated =
        ndLocalIdle.lastTerminated) ∧
    (NodeWebLocal.Clean envOk 7 ndLocalIdle).2.lastTerminated = 7 :=
  ⟨(timestamps_updated_only_on_success envOk 50 ndLocalIdle).2.1 (by decide),
   (timestamps_updated_only_on_success envOk 7 ndLocalIdle).2.2.2.1⟩

/-- C8: on either variant, Start while already active fails with
AlreadyActive and returns the node state entirely unchanged — in
particular the command handle, PID and both timestamps (which only the
local variant carries) are untouched. -/
theorem start_idempotent_failure (env : Env) :
    (∀ nd : NodeWebLocal, nd.active = true →
      NodeWebLocal.Start env nd = (some (.alreadyActive nd.flags.name), nd)) ∧
    (∀ nd : NodeWebRemoteClient, nd.active = true →
      NodeWebRemoteClient.Start env nd = (some (.alreadyActive nd.flags.name), nd)) := by
  constructor
  · intro nd ha
    simp [NodeWebLocal.Start, ha]
  · intro nd ha
    simp [NodeWebRemoteClient.Start, ha]

/-- C8 witness: the concrete active local and remote nodes. -/
theorem start_idempotent_failure_witness :
    NodeWebLocal.Start envOk ndLocalActive =
      (some (.alreadyActive ndLocalActive.flags.name), ndLocalActive) ∧
    NodeWebRemoteClient.Start envOk ndRemoteActive =
      (some (.alreadyActive ndRemoteActive.flags.name), ndRemoteActive) :=
  ⟨(start_idempotent_failure envOk).1 ndLocalActive rfl,
   (start_idempotent_failure envOk).2 ndRemoteActive rfl⟩

/-- C5: Shutdown always returns success, and the resulting registry is
exactly the original one with every node's terminate-and-clean worker
applied — no per-node Terminate or Clean failure is propagated. -/
theorem shutdown_always_succeeds (c : Cluster) (env : String → Env) (now : Int) :
    (Cluster.Shutdown c env now).1 = none ∧
    (Cluster.Shutdown c env now).2.nodes =
      c.nodes.map (fun p => (p.1, shutdownNode (env p.1) now p.2)) := by
  constructor
  · unfold Cluster.Shutdown
    split <;> rfl
  · unfold Cluster.Shutdown
    split
    · next h =>
        simp [List.isEmpty_iff.mp h]
    · rfl

/-- C10: NewCluster invoked with an empty flag list returns a nil
cluster together with a nil error, before applying options, checking
agent endpoints, validating the configuration, or building any node or
channel. -/
theorem newcluster_empty_flags (opt : NodeType) (programPath : String)
    (opts : List (Op → Op)) (env : NewClusterEnv) :
    NewCluster opt programPath [] opts env = .ok none := rfl

/-- A successful Restart leaves the node active, in either variant. -/
theorem restart_ok_active (env : Env) (now : Int) (nd : Node) :
    (Node.Restart env now nd).1 = none → (Node.Restart env now nd).2.IsActive = true := by
  cases nd with
  | webLocal nd =>
      cases ha : nd.active <;>
        cases hf : env.flagStringOk <;> cases hc : env.cmdStartOk <;>
          by_cases h1 : now - nd.lastRestarted < nd.limitInterval <;>
          by_cases h2 : now - nd.lastTerminated < nd.limitInterval <;>
            simp [Node.Restart, Node.IsActive, NodeWebLocal.Restart,
                  NodeWebLocal.IsActive, ha, hf, hc, h1, h2]
  | webRemote nd =>
      cases ha : nd.active <;> cases hr : env.agentRestartOk <;>
        simp [Node.Restart, Node.IsActive, NodeWebRemoteClient.Restart,
              NodeWebRemoteClient.IsActive, ha, hr]

/-- When every restart in the list succeeds, the sequential revive loop
returns success and leaves every node active. -/
theorem reviveLoop_all_ok (env : String → Env) (now : Int) :
    ∀ l : List (String × Node),
      (∀ p ∈ l, (Node.Restart (env p.1) now p.2).1 = none) →
      (reviveLoop env now l).1 = none ∧
      ∀ q ∈ (reviveLoop env now l).2, q.2.IsActive = true := by
  intro l
  induction l with
  | nil => intro _; exact ⟨rfl, by intro q hq; cases hq⟩
  | cons hd tl ih =>
      intro hall
      have hhd := hall hd (by simp)
      have htl := ih (fun p hp => hall p (by simp [hp]))
      refine ⟨?_, ?_⟩
      · simp only [reviveLoop, hhd]
        exact htl.1
      · intro q hq
        simp only [reviveLoop, hhd] at hq
        rcases List.mem_cons.mp hq with h | h
        · subst h
          exact restart_ok_active (env hd.1) now hd.2 hhd
        · exact htl.2 q h

/-- The sequential revive loop stops at the first failing restart: every
node before it has been restarted, the failing node keeps the state its
failing restart left, and every node after it is untouched. -/
theorem reviveLoop_first_error (env : String → Env) (now : Int) (e : NodeErr) :
    ∀ (pre : List (String × Node)) (nm : String) (nd : Node)
      (post : List (String × Node)),
      (∀ p ∈ pre, (Node.Restart (env p.1) now p.2).1 = none) →
      (Node.Restart (env nm) now nd).1 = some e →
      reviveLoop env now (pre ++ (nm, nd) :: post) =
        (some e,
         pre.map (fun p => (p.1, (Node.Restart (env p.1) now p.2).2)) ++
           (nm, (Node.Restart (env nm) now nd).2) :: post) := by
  intro pre
  induction pre with
  | nil =>
      intro nm nd post _ hfail
      simp only [List.nil_append, reviveLoop, hfail, List.map_nil]
  | cons hd tl ih =>
      intro nm nd post hpre hfail
      have hhd := hpre hd (by simp)
      have htl := ih nm nd post (fun p hp => hpre p (by simp [hp])) hfail
      simp only [List.cons_append, reviveLoop, hhd, List.map_cons,
                 List.append_eq, htl]

/-- C6: Revive is a success no-op when any node reports active; when no
node is active it restarts the nodes one at a time, returning success
with every node active when every restart succeeds, and stopping at and
returning the first restart error, leaving the remaining nodes
untouched. -/
theorem revive_spec (c : Cluster) (env : String → Env) (now : Int) :
    ((∃ p ∈ c.nodes, p.2.IsActive = true) → Cluster.Revive c env now = (none, c)) ∧
    ((∀ p ∈ c.nodes, p.2.IsActive = false) →
      ((∀ p ∈ c.nodes, (Node.Restart (env p.1) now p.2).1 = none) →
        (Cluster.Revive c env now).1 = none ∧
        ∀ q ∈ (Cluster.Revive c env now).2.nodes, q.2.IsActive = true) ∧
      (∀ (pre : List (String × Node)) (nm : String) (nd : Node)
         (post : List (String × Node)) (e : NodeErr),
        c.nodes = pre ++ (nm, nd) :: post →
        (∀ p ∈ pre, (Node.Restart (env p.1) now p.2).1 = none) →
        (Node.Restart (env nm) now nd).1 = some e →
        (Cluster.Revive c env now).1 = some e ∧
        (Cluster.Revive c env now).2.nodes =
          pre.map (fun p => (p.1, (Node.Restart (env p.1) now p.2).2)) ++
            (nm, (Node.Restart (env nm) now nd).2) :: post)) := by
  have hany : c.nodes.any (fun p => p.2.IsActive) = true ↔
      ∃ p ∈ c.nodes, p.2.IsActive = true := List.any_eq_true
  constructor
  · intro hex
    unfold Cluster.Revive
    rw [if_pos (hany.mpr hex)]
  · intro hinact
    have hno : c.nodes.any (fun p => p.2.IsActive) = false := by
      rw [Bool.eq_false_iff]
      intro hcon
      rcases hany.mp hcon with ⟨p, hp, hact⟩
      rw [hinact p hp] at hact
      cases hact
    constructor
    · intro hall
      have := reviveLoop_all_ok env now c.nodes hall
      unfold Cluster.Revive
      rw [if_neg (by simp [hno])]
      exact ⟨this.1, this.2⟩
    · intro pre nm nd post e hsplit hpre hfail
      have hloop := reviveLoop_first_error env now e pre nm nd post hpre hfail
      unfold Cluster.Revive
      rw [if_neg (by simp [hno])]
      rw [hsplit, hloop]
      exact ⟨rfl, rfl⟩

/-- C6 witness: on the concrete cluster with an active node Revive is a
success no-op, and on the concrete fully-inactive cluster it restarts
everything successfully. -/
theorem revive_spec_witness :
    Cluster.Revive clusterLive envAll 0 = (none, clusterLive) ∧
    ((Cluster.Revive clusterIdle envAll 0).1 = none ∧
      ∀ q ∈ (Cluster.Revive clusterIdle envAll 0).2.nodes, q.2.IsActive = true) :=
  ⟨(revive_spec clusterLive envAll 0).1 (by decide),
   (((revive_spec clusterIdle envAll 0).2 (by decide)).1 (by decide))⟩

/-- Looking up a key of a key-distinct pair list built by mapping a
value function over a registry finds exactly that entry's value. -/
theorem aLookup_pairmap {γ δ : Type} (f : String × γ → δ) :
    ∀ (l : List (String × γ)), (l.map Prod.fst).Nodup →
      ∀ p ∈ l, aLookup p.1 (l.map fun q => (q.1, f q)) = some (f p) := by
  intro l
  induction l with
  | nil => intro _ p hp; cases hp
  | cons hd tl ih =>
      intro hnd p hp
      simp only [List.map_cons] at hnd ⊢
      rcases List.mem_cons.mp hp with h | h
      · subst h
        simp [aLookup]
      · have hne : hd.1 ≠ p.1 := by
          intro hcon
          have hmem : p.1 ∈ tl.map Prod.fst := List.mem_map_of_mem Prod.fst h
          rw [hcon] at hnd
          exact (List.nodup_cons.mp hnd).1 hmem
        simp only [aLookup, if_neg hne]
        exact ih (List.nodup_cons.mp hnd).2 p h

/-- C7: `Endpoints` returns the client endpoints of exactly the
currently-active nodes (every registered node having a non-empty
endpoint, as the configuration validation guarantees), sorted
lexicographically, together with a name-to-endpoint mapping holding one
entry for every registered node, inactive ones included. -/
theorem endpoints_spec (c : Cluster)
    (hne : ∀ p ∈ c.nodes, p.2.Endpoint ≠ "")
    (hnd : (c.nodes.map Prod.fst).Nodup) :
    List.Sorted (· ≤ ·) c.Endpoints.1 ∧
    c.Endpoints.1.Perm
      ((c.nodes.filter (fun p => p.2.IsActive)).map (fun p => p.2.Endpoint)) ∧
    c.Endpoints.2.length = c.nodes.length ∧
    (∀ p ∈ c.nodes, aLookup p.1 c.Endpoints.2 = some p.2.Endpoint) := by
  have hfil : c.nodes.filter (fun p => (p.2.Endpoint != "") && p.2.IsActive)
      = c.nodes.filter (fun p => p.2.IsActive) := by
    refine List.filter_congr ?_
    intro x hx
    simp [bne_iff_ne, hne x hx]
  refine ⟨?_, ?_, ?_, ?_⟩
  · exact List.sorted_insertionSort _ _
  · unfold Cluster.Endpoints
    dsimp only
    rw [hfil]
    exact List.perm_insertionSort _ _
  · simp [Cluster.Endpoints]
  · intro p hp
    exact aLookup_pairmap (fun q => q.2.Endpoint) c.nodes hnd p hp

/-- C7 witness: the concrete two-node cluster (one active local node,
one inactive remote node) instantiates every conclusion. -/
theorem endpoints_spec_witness :
    List.Sorted (· ≤ ·) clusterLive.Endpoints.1 ∧
    clusterLive.Endpoints.1.Perm
      ((clusterLive.nodes.filter (fun p => p.2.IsActive)).map
        (fun p => p.2.Endpoint)) ∧
    clusterLive.Endpoints.2.length = clusterLive.nodes.length ∧
    (∀ p ∈ clusterLive.nodes,
      aLookup p.1 clusterLive.Endpoints.2 = some p.2.Endpoint) :=
  endpoints_spec clusterLive (by decide) (by decide)

/-- Inserting a key finds it again. -/
theorem aLookup_upsert_self {β : Type} (k : String) (v : β) :
    ∀ m : List (String × β), aLookup k (aUpsert k v m) = some v := by
  intro m
  induction m with
  | nil => simp [aUpsert, aLookup]
  | cons hd tl ih =>
      obtain ⟨k0, v0⟩ := hd
      by_cases h : k0 = k
      · subst h; simp [aUpsert, aLookup]
      · simp [aUpsert, h, aLookup, ih]

/-- Inserting one key leaves lookups of any other key unchanged. -/
theorem aLookup_upsert_ne {β : Type} (k k' : String) (v : β) (h : k ≠ k') :
    ∀ m : List (String × β), aLookup k (aUpsert k' v m) = aLookup k m := by
  intro m
  induction m with
  | nil => simp [aUpsert, aLookup, Ne.symm h]
  | cons hd tl ih =>
      obtain ⟨k0, v0⟩ := hd
      by_cases h0 : k0 = k'
      · subst h0
        simp [aUpsert, aLookup, Ne.symm h]
      · by_cases h1 : k0 = k
        · subst h1; simp [aUpsert, h0, aLookup]
        · simp [aUpsert, h0, aLookup, h1, ih]

/-- `Stream` never disturbs another (or an existing) registration. -/
theorem stream_lookup_preserved (c : Cluster) (sid s : String) (ch : Nat)
    (h : aLookup s c.idToStream = some ch) :
    aLookup s (c.Stream sid).2.idToStream = some ch := by
  unfold Cluster.Stream
  cases hl : aLookup sid c.idToStream with
  | some ch' => exact h
  | none =>
      by_cases hs : s = sid
      · subst hs; rw [h] at hl; cases hl
      · dsimp only
        rw [aLookup_upsert_ne s sid c.nextChan hs c.idToStream]
        exact h

/-- A send to a named stream preserves every existing registration. -/
theorem sendToStream_lookup_preserved (c : Cluster) (sid msg s : String) (ch : Nat)
    (h : aLookup s c.idToStream = some ch) :
    aLookup s (sendToStream c sid msg).idToStream = some ch := by
  unfold sendToStream
  dsimp only
  exact stream_lookup_preserved c sid s ch h

/-- Folded sends preserve every existing registration. -/
theorem foldl_send_lookup_preserved (msg s : String) (ch : Nat) :
    ∀ (sids : List String) (c : Cluster), aLookup s c.idToStream = some ch →
      aLookup s (sids.foldl (fun acc sid => sendToStream acc sid msg) c).idToStream
        = some ch := by
  intro sids
  induction sids with
  | nil => intro c h; exact h
  | cons hd tl ih =>
      intro c h
      simp only [List.foldl_cons]
      exact ih _ (sendToStream_lookup_preserved c hd msg s ch h)

/-- `Write` preserves every existing stream registration. -/
theorem write_idToStream_preserved (c : Cluster) (name msg s : String)
    (sids : List String) (ch : Nat)
    (h : aLookup s c.idToStream = some ch) :
    aLookup s ((c.Write name msg sids).2).idToStream = some ch := by
  unfold Cluster.Write
  cases aLookup name c.nodes with
  | none => exact h
  | some nd =>
      cases nd with
      | webLocal nd =>
          cases hse : sids.isEmpty <;> simp only [hse]
          · exact foldl_send_lookup_preserved msg s ch sids c h
          · exact h
      | webRemote nd =>
          cases hse : sids.isEmpty <;> simp only [hse]
          · exact foldl_send_lookup_preserved msg s ch sids c h
          · exact h

/-- `Cluster.Start` does not touch the stream registry. -/
theorem start_idToStream_eq (c : Cluster) (env : String → Env) (now : Int)
    (name : String) :
    (Cluster.Start c env now name).2.idToStream = c.idToStream := by
  unfold Cluster.Start
  cases aLookup name c.nodes <;> rfl

/-- `Cluster.Restart` does not touch the stream registry. -/
theorem restart_idToStream_eq (c : Cluster) (env : String → Env) (now : Int)
    (name : String) :
    (Cluster.Restart c env now name).2.idToStream = c.idToStream := by
  unfold Cluster.Restart
  cases aLookup name c.nodes <;> rfl

/-- `Cluster.Terminate` does not touch the stream registry. -/
theorem terminate_idToStream_eq (c : Cluster) (env : String → Env) (now : Int)
    (name : String) :
    (Cluster.Terminate c env now name).2.idToStream = c.idToStream := by
  unfold Cluster.Terminate
  cases aLookup name c.nodes <;> rfl

/-- `Cluster.Clean` does not touch the stream registry. -/
theorem clean_idToStream_eq (c : Cluster) (env : String → Env) (now : Int)
    (name : String) :
    (Cluster.Clean c env now name).2.idToStream = c.idToStream := by
  unfold Cluster.Clean
  cases aLookup name c.nodes <;> rfl

/-- `Revive` does not touch the stream registry. -/
theorem revive_idToStream_eq (c : Cluster) (env : String → Env) (now : Int) :
    (Cluster.Revive c env now).2.idToStream = c.idToStream := by
  unfold Cluster.Revive
  split <;> rfl

/-- `Shutdown` does not touch the stream registry. -/
theorem shutdown_idToStream_eq (c : Cluster) (env : String → Env) (now : Int) :
    (Cluster.Shutdown c env now).2.idToStream = c.idToStream := by
  unfold Cluster.Shutdown
  split <;> rfl

/-- C9: `Stream` is idempotent per identifier — the first call registers
a fresh channel for the identifier and immediately repeating the call
returns that identical channel with the registry unchanged; once an
identifier is registered, every cluster operation (Stream on any
identifier, Write, per-node Start/Restart/Terminate/Clean, Revive,
Shutdown) leaves its registration in place — nothing ever removes it. -/
theorem stream_registry_spec (c : Cluster) (env : String → Env) (now : Int)
    (s : String) (ch : Nat) :
    (aLookup s c.idToStream = none →
      aLookup s (c.Stream s).2.idToStream = some (c.Stream s).1 ∧
      (c.Stream s).2.Stream s = ((c.Stream s).1, (c.Stream s).2)) ∧
    (aLookup s c.idToStream = some ch →
      c.Stream s = (ch, c) ∧
      (∀ sid, aLookup s ((c.Stream sid).2).idToStream = some ch) ∧
      (∀ name msg sids, aLookup s ((c.Write name msg sids).2).idToStream = some ch) ∧
      (∀ name, aLookup s ((Cluster.Start c env now name).2).idToStream = some ch) ∧
      (∀ name, aLookup s ((Cluster.Restart c env now name).2).idToStream = some ch) ∧
      (∀ name, aLookup s ((Cluster.Terminate c env now name).2).idToStream = some ch) ∧
      (∀ name, aLookup s ((Cluster.Clean c env now name).2).idToStream = some ch) ∧
      aLookup s ((Cluster.Revive c env now).2).idToStream = some ch ∧
      aLookup s ((Cluster.Shutdown c env now).2).idToStream = some ch) := by
  constructor
  · intro hl
    have hs : c.Stream s = (c.nextChan,
        { c with idToStream := aUpsert s c.nextChan c.idToStream,
                 nextChan := c.nextChan + 1 }) := by
      unfold Cluster.Stream
      rw [hl]
    constructor
    · rw [hs]
      exact aLookup_upsert_self s c.nextChan c.idToStream
    · rw [hs]
      unfold Cluster.Stream
      dsimp only
      rw [aLookup_upsert_self s c.nextChan c.idToStream]
  · intro hl
    have hs : c.Stream s = (ch, c) := by
      unfold Cluster.Stream
      rw [hl]
    refine ⟨hs, ?_, ?_, ?_, ?_, ?_, ?_, ?_, ?_⟩
    · intro sid
      exact stream_lookup_preserved c sid s ch hl
    · intro name msg sids
      exact write_idToStream_preserved c name msg s sids ch hl
    · intro name
      rw [start_idToStream_eq]
      exact hl
    · intro name
      rw [restart_idToStream_eq]
      exact hl
    · intro name
      rw [terminate_idToStream_eq]
      exact hl
    · intro name
      rw [clean_idToStream_eq]
      exact hl
    · rw [revive_idToStream_eq]
      exact hl
    · rw [shutdown_idToStream_eq]
      exact hl

/-- C9 witness: on the concrete cluster with an empty registry the first
call registers the fresh channel and repeating it is identity; after the
registration, Stream returns the identical channel and Shutdown leaves
the registration in place. -/
theorem stream_registry_spec_witness :
    (aLookup "user1" (clusterLive.Stream "user1").2.idToStream =
        some (clusterLive.Stream "user1").1 ∧
      (clusterLive.Stream "user1").2.Stream "user1" =
        ((clusterLive.Stream "user1").1, (clusterLive.Stream "user1").2)) ∧
    clusterStreamed.Stream "user1" = (0, clusterStreamed) ∧
    aLookup "user1" ((Cluster.Shutdown clusterStreamed envAll 0).2).idToStream
      = some 0 :=
  ⟨(stream_registry_spec clusterLive envAll 0 "user1" 0).1 rfl,
   ((stream_registry_spec clusterStreamed envAll 0 "user1" 0).2 (by decide)).1,
   ((stream_registry_spec clusterStreamed envAll 0 "user1" 0).2
      (by decide)).2.2.2.2.2.2.2.2⟩

/-- A key found in the prefix is found in the whole list. -/
theorem aLookup_append_some {β : Type} (k : String) (v : β) :
    ∀ (a b : List (String × β)), aLookup k a = some v →
      aLookup k (a ++ b) = some v := by
  intro a
  induction a with
  | nil => intro b h; cases h
  | cons hd tl ih =>
      intro b h
      obtain ⟨k0, v0⟩ := hd
      by_cases h0 : k0 = k
      · subst h0
        simp only [aLookup, if_pos rfl] at h ⊢
        exact h
      · simp only [aLookup, if_neg h0, List.cons_append] at h ⊢
        exact ih b h

/-- A key absent from the prefix is looked up in the suffix. -/
theorem aLookup_append_none {β : Type} (k : String) :
    ∀ (a b : List (String × β)), aLookup k a = none →
      aLookup k (a ++ b) = aLookup k b := by
  intro a
  induction a with
  | nil => intro b _; rfl
  | cons hd tl ih =>
      intro b h
      obtain ⟨k0, v0⟩ := hd
      by_cases h0 : k0 = k
      · subst h0
        simp only [aLookup, if_pos rfl] at h
        cases h
      · simp only [aLookup, if_neg h0, List.cons_append] at h ⊢
        exact ih b h

/-- Inserting an absent key appends it. -/
theorem aUpsert_absent {β : Type} (k : String) (v : β) :
    ∀ m : List (String × β), aLookup k m = none → aUpsert k v m = m ++ [(k, v)] := by
  intro m
  induction m with
  | nil => intro _; rfl
  | cons hd tl ih =>
      intro h
      obtain ⟨k0, v0⟩ := hd
      by_cases h0 : k0 = k
      · subst h0
        simp only [aLookup, if_pos rfl] at h
        cases h
      · simp only [aLookup, if_neg h0] at h
        simp only [aUpsert, if_neg h0, List.cons_append, ih h]

/-- The fan-in loop collects exactly the successful probes (in
processing order, keyed by their distinct names) on top of the
accumulator, and threads the last observed error. -/
theorem statusLoop_eq (probes : String → ProbeOutcome) :
    ∀ (l : List (String × String)) (acc : List (String × ServerStatus))
      (err : Option String),
      (l.map Prod.fst).Nodup →
      (∀ x ∈ l, aLookup x.1 acc = none) →
      statusLoop probes l acc err =
        (acc ++ l.filterMap (okEntry probes), lastErrAux probes l err) := by
  intro l
  induction l with
  | nil =>
      intro acc err _ _
      simp [statusLoop, lastErrAux]
  | cons hd tl ih =>
      intro acc err hnd hacc
      obtain ⟨nm, ep⟩ := hd
      simp only [List.map_cons] at hnd
      have hndtl : (tl.map Prod.fst).Nodup := (List.nodup_cons.mp hnd).2
      have hnmem : nm ∉ tl.map Prod.fst := (List.nodup_cons.mp hnd).1
      cases hp : probes nm with
      | fail e =>
          have hacc' : ∀ x ∈ tl, aLookup x.1 acc = none :=
            fun x hx => hacc x (List.mem_cons_of_mem _ hx)
          simp only [statusLoop, getStatus, hp]
          rw [ih acc (some e) hndtl hacc']
          simp [okEntry, hp, lastErrAux]
      | ok id isL found hash keys =>
          have hself : aLookup nm acc = none := hacc (nm, ep) (List.mem_cons_self _ _)
          have hstep : statusLoop probes ((nm, ep) :: tl) acc err
              = statusLoop probes tl
                  (aUpsert nm (mkStat nm ep id isL found hash keys) acc) err := by
            simp only [statusLoop, getStatus, hp]
            rfl
          have habsent := aUpsert_absent nm (mkStat nm ep id isL found hash keys) acc hself
          rw [hstep, habsent]
          have hacc' : ∀ x ∈ tl,
              aLookup x.1 (acc ++ [(nm, mkStat nm ep id isL found hash keys)]) = none := by
            intro x hx
            have h1 : aLookup x.1 acc = none := hacc x (List.mem_cons_of_mem _ hx)
            have hne : nm ≠ x.1 := by
              intro hcon
              exact hnmem (hcon ▸ List.mem_map_of_mem Prod.fst hx)
            rw [aLookup_append_none x.1 acc _ h1]
            simp [aLookup, hne]
          rw [ih _ err hndtl hacc']
          simp [okEntry, hp, lastErrAux, List.append_assoc]

/-- The backfill pass appends exactly one placeholder for every
requested name that is missing from the collected map. -/
theorem backfill_eq :
    ∀ (l : List (String × String)) (acc : List (String × ServerStatus)),
      (l.map Prod.fst).Nodup →
      backfill l acc =
        acc ++ (l.filter (fun x => (aLookup x.1 acc).isNone)).map
          (fun x => (x.1, { emptyStat with Name := x.1, Endpoint := x.2 })) := by
  intro l
  induction l with
  | nil =>
      intro acc _
      simp [backfill]
  | cons hd tl ih =>
      intro acc hnd
      obtain ⟨nm, ep⟩ := hd
      simp only [List.map_cons] at hnd
      have hndtl : (tl.map Prod.fst).Nodup := (List.nodup_cons.mp hnd).2
      have hnmem : nm ∉ tl.map Prod.fst := (List.nodup_cons.mp hnd).1
      cases hl : aLookup nm acc with
      | some s =>
          simp only [backfill, hl]
          rw [ih acc hndtl]
          simp [List.filter_cons, hl]
      | none =>
          simp only [backfill, hl]
          rw [aUpsert_absent nm _ acc hl]
          rw [ih _ hndtl]
          have hfc : tl.filter (fun x =>
                (aLookup x.1 (acc ++ [(nm,
                  { emptyStat with Name := nm, Endpoint := ep })])).isNone)
              = tl.filter (fun x => (aLookup x.1 acc).isNone) := by
            refine List.filter_congr ?_
            intro x hx
            have hne : nm ≠ x.1 := by
              intro hcon
              exact hnmem (hcon ▸ List.mem_map_of_mem Prod.fst hx)
            cases hacc : aLookup x.1 acc with
            | some v => rw [aLookup_append_some x.1 v acc _ hacc]
            | none =>
                rw [aLookup_append_none x.1 acc _ hacc]
                simp [aLookup, hne]
          rw [hfc]
          simp [List.filter_cons, hl, List.append_assoc]

/-- A name outside the probed list never appears among the collected
successes. -/
theorem okList_lookup_absent (probes : String → ProbeOutcome) (k : String) :
    ∀ l : List (String × String), k ∉ l.map Prod.fst →
      aLookup k (l.filterMap (okEntry probes)) = none := by
  intro l
  induction l with
  | nil => intro _; rfl
  | cons hd tl ih =>
      intro hk
      obtain ⟨nm, ep⟩ := hd
      simp only [List.map_cons, List.mem_cons] at hk
      push_neg at hk
      have hne : nm ≠ k := fun h => hk.1 h.symm
      cases hp : probes nm with
      | fail e =>
          simp only [List.filterMap_cons, okEntry, hp]
          exact ih hk.2
      | ok id isL found hash keys =>
          simp only [List.filterMap_cons, okEntry, hp]
          simp only [aLookup, if_neg hne]
          exact ih hk.2

/-- A failing node is absent from the collected successes. -/
theorem okList_lookup_fail (probes : String → ProbeOutcome) :
    ∀ l : List (String × String), (l.map Prod.fst).Nodup →
      ∀ x ∈ l, ∀ e, probes x.1 = .fail e →
        aLookup x.1 (l.filterMap (okEntry probes)) = none := by
  intro l
  induction l with
  | nil => intro _ x hx; cases hx
  | cons hd tl ih =>
      intro hnd x hx e hp
      obtain ⟨nm, ep⟩ := hd
      simp only [List.map_cons] at hnd
      have hndtl := (List.nodup_cons.mp hnd).2
      have hnmem := (List.nodup_cons.mp hnd).1
      rcases List.mem_cons.mp hx with h | h
      · subst h
        simp only at hp
        simp only [List.filterMap_cons, okEntry, hp]
        exact okList_lookup_absent probes nm tl hnmem
      · have hne : nm ≠ x.1 := by
          intro hcon
          exact hnmem (hcon ▸ List.mem_map_of_mem Prod.fst h)
        cases hq : probes nm with
        | fail e2 =>
            simp only [List.filterMap_cons, okEntry, hq]
            exact ih hndtl x h e hp
        | ok id isL found hash keys =>
            simp only [List.filterMap_cons, okEntry, hq]
            simp only [aLookup, if_neg hne]
            exact ih hndtl x h e hp

/-- A succeeding node's collected entry is exactly its probe snapshot. -/
theorem okList_lookup_ok (probes : String → ProbeOutcome) :
    ∀ l : List (String × String), (l.map Prod.fst).Nodup →
      ∀ x ∈ l, ∀ (id : String) (isL found : Bool) (hash keys : Nat),
        probes x.1 = .ok id isL found hash keys →
        aLookup x.1 (l.filterMap (okEntry probes)) =
          some (mkStat x.1 x.2 id isL found hash keys) := by
  intro l
  induction l with
  | nil => intro _ x hx; cases hx
  | cons hd tl ih =>
      intro hnd x hx id isL found hash keys hp
      obtain ⟨nm, ep⟩ := hd
      simp only [List.map_cons] at hnd
      have hndtl := (List.nodup_cons.mp hnd).2
      have hnmem := (List.nodup_cons.mp hnd).1
      rcases List.mem_cons.mp hx with h | h
      · subst h
        simp only at hp
        simp only [List.filterMap_cons, okEntry, hp]
        simp [aLookup]
      · have hne : nm ≠ x.1 := by
          intro hcon
          exact hnmem (hcon ▸ List.mem_map_of_mem Prod.fst h)
        cases hq : probes nm with
        | fail e2 =>
            simp only [List.filterMap_cons, okEntry, hq]
            exact ih hndtl x h id isL found hash keys hp
        | ok id2 isL2 found2 hash2 keys2 =>
            simp only [List.filterMap_cons, okEntry, hq]
            simp only [aLookup, if_neg hne]
            exact ih hndtl x h id isL found hash keys hp

/-- The collected successes are as many as the succeeding probes. -/
theorem okList_length (probes : String → ProbeOutcome) :
    ∀ l : List (String × String),
      (l.filterMap (okEntry probes)).length =
        (l.filter (fun x => !(probes x.1).isFail)).length := by
  intro l
  induction l with
  | nil => rfl
  | cons hd tl ih =>
      obtain ⟨nm, ep⟩ := hd
      cases hp : probes nm <;>
        simp [List.filterMap_cons, List.filter_cons, okEntry, hp,
              ProbeOutcome.isFail, ih]

/-- An already-recorded error is never cleared by the fan-in loop. -/
theorem lastErrAux_some (probes : String → ProbeOutcome) :
    ∀ (l : List (String × String)) (e : String),
      ∃ e', lastErrAux probes l (some e) = some e' := by
  intro l
  induction l with
  | nil => intro e; exact ⟨e, rfl⟩
  | cons hd tl ih =>
      intro e
      cases hp : probes hd.1 with
      | fail e2 =>
          simpa [lastErrAux, hp] using ih e2
      | ok id isL found hash keys =>
          simpa [lastErrAux, hp] using ih e

/-- The error slot ends empty exactly when no probe failed. -/
theorem lastErrAux_none_iff (probes : String → ProbeOutcome) :
    ∀ l : List (String × String),
      (lastErrAux probes l none = none ↔
        ∀ x ∈ l, (probes x.1).isFail = false) := by
  intro l
  induction l with
  | nil => simp [lastErrAux]
  | cons hd tl ih =>
      cases hp : probes hd.1 with
      | fail e =>
          obtain ⟨e', he'⟩ := lastErrAux_some probes tl e
          simp only [lastErrAux, hp, he']
          constructor
          · intro h
            exact absurd h (by simp)
          · intro h
            have h2 := h hd (List.mem_cons_self _ _)
            rw [hp] at h2
            exact absurd h2 (by simp [ProbeOutcome.isFail])
      | ok id isL found hash keys =>
          simp only [lastErrAux, hp]
          rw [ih]
          constructor
          · intro h x hx
            rcases List.mem_cons.mp hx with h1 | h1
            · subst h1
              rw [hp]
              rfl
            · exact h x h1
          · intro h x hx
            exact h x (List.mem_cons_of_mem _ hx)

/-- C2: `Status` over a registry with distinct node names returns a map
with exactly one entry per registered node, however many probes fail:
a node whose probe did not contribute to the result set receives the
"unreachable" placeholder carrying its name and endpoint, and the call
returns the last observed probe error (none exactly when every probe
succeeded) alongside that complete map. -/
theorem status_complete (c : Cluster) (probes : String → ProbeOutcome)
    (hnd : (c.nodes.map Prod.fst).Nodup) :
    (Cluster.Status c probes).1.length = c.nodes.length ∧
    (∀ p ∈ c.nodes, ∃ s, aLookup p.1 (Cluster.Status c probes).1 = some s) ∧
    (∀ p ∈ c.nodes, (probes p.1).isFail = true →
      aLookup p.1 (Cluster.Status c probes).1 =
        some { emptyStat with Name := p.1, Endpoint := p.2.Endpoint }) ∧
    (Cluster.Status c probes).2 = lastErrAux probes c.Endpoints.2 none ∧
    ((Cluster.Status c probes).2 = none ↔
      ∀ p ∈ c.nodes, (probes p.1).isFail = false) := by
  have hn2e : c.Endpoints.2 = c.nodes.map (fun p => (p.1, p.2.Endpoint)) := rfl
  have hkeys : c.Endpoints.2.map Prod.fst = c.nodes.map Prod.fst := by
    rw [hn2e, List.map_map]
    rfl
  have hnd2 : (c.Endpoints.2.map Prod.fst).Nodup := by
    rw [hkeys]
    exact hnd
  have hstat : Cluster.Status c probes
      = (backfill c.Endpoints.2 (c.Endpoints.2.filterMap (okEntry probes)),
         lastErrAux probes c.Endpoints.2 none) := by
    unfold Cluster.Status
    dsimp only
    rw [statusLoop_eq probes c.Endpoints.2 [] none hnd2 (fun x _ => rfl)]
    simp
  have hback := backfill_eq c.Endpoints.2
    (c.Endpoints.2.filterMap (okEntry probes)) hnd2
  have hmemx : ∀ p ∈ c.nodes, (p.1, p.2.Endpoint) ∈ c.Endpoints.2 := by
    intro p hp
    rw [hn2e]
    exact List.mem_map_of_mem _ hp
  have hpt : ∀ x ∈ c.Endpoints.2,
      (aLookup x.1 (c.Endpoints.2.filterMap (okEntry probes))).isNone
        = (probes x.1).isFail := by
    intro x hx
    cases hp : probes x.1 with
    | fail e =>
        rw [okList_lookup_fail probes c.Endpoints.2 hnd2 x hx e hp]
        simp [ProbeOutcome.isFail]
    | ok id isL found hash keys =>
        rw [okList_lookup_ok probes c.Endpoints.2 hnd2 x hx id isL found hash keys hp]
        simp [ProbeOutcome.isFail]
  have hfailLookup : ∀ p ∈ c.nodes, (probes p.1).isFail = true →
      aLookup p.1 (Cluster.Status c probes).1 =
        some { emptyStat with Name := p.1, Endpoint := p.2.Endpoint } := by
    intro p hp hf
    obtain ⟨e, he⟩ : ∃ e, probes p.1 = .fail e := by
      cases hq : probes p.1 with
      | fail e => exact ⟨e, rfl⟩
      | ok id isL found hash keys =>
          rw [hq] at hf
          exact absurd hf (by simp [ProbeOutcome.isFail])
    have hx := hmemx p hp
    have hnone : aLookup p.1 (c.Endpoints.2.filterMap (okEntry probes)) = none :=
      okList_lookup_fail probes c.Endpoints.2 hnd2 (p.1, p.2.Endpoint) hx e he
    rw [hstat]
    dsimp only
    rw [hback]
    rw [aLookup_append_none p.1 _ _ hnone]
    have hsubkeys : ((c.Endpoints.2.filter (fun x =>
        (aLookup x.1 (c.Endpoints.2.filterMap (okEntry probes))).isNone)).map
          Prod.fst).Sublist (c.Endpoints.2.map Prod.fst) :=
      List.Sublist.map Prod.fst (List.filter_sublist _)
    have hndfil := hnd2.sublist hsubkeys
    have hmemfil : (p.1, p.2.Endpoint) ∈ c.Endpoints.2.filter (fun x =>
        (aLookup x.1 (c.Endpoints.2.filterMap (okEntry probes))).isNone) := by
      refine List.mem_filter.mpr ⟨hx, ?_⟩
      rw [hnone]
      rfl
    exact aLookup_pairmap
      (fun q => { emptyStat with Name := q.1, Endpoint := q.2 }) _ hndfil
      (p.1, p.2.Endpoint) hmemfil
  refine ⟨?_, ?_, hfailLookup, ?_, ?_⟩
  · rw [hstat]
    dsimp only
    rw [hback]
    rw [List.length_append, List.length_map, okList_length,
        List.filter_congr hpt]
    have hperm := (List.filter_append_perm
      (fun x => !(probes x.1).isFail) c.Endpoints.2).length_eq
    rw [List.length_append] at hperm
    have hnn : c.Endpoints.2.filter (fun x => !(!(probes x.1).isFail))
        = c.Endpoints.2.filter (fun x => (probes x.1).isFail) := by
      refine List.filter_congr ?_
      intro x _
      simp
    rw [hnn] at hperm
    have hlen2 : c.Endpoints.2.length = c.nodes.length := by
      rw [hn2e, List.length_map]
    omega
  · intro p hp
    cases hf : (probes p.1).isFail with
    | true => exact ⟨_, hfailLookup p hp hf⟩
    | false =>
        obtain ⟨id, isL, found, hash, keys, hq⟩ :
            ∃ id isL found hash keys, probes p.1 = .ok id isL found hash keys := by
          cases hq : probes p.1 with
          | fail e =>
              rw [hq] at hf
              exact absurd hf (by simp [ProbeOutcome.isFail])
          | ok id isL found hash keys => exact ⟨id, isL, found, hash, keys, rfl⟩
        have hx := hmemx p hp
        have hsome := okList_lookup_ok probes c.Endpoints.2 hnd2
          (p.1, p.2.Endpoint) hx id isL found hash keys hq
        refine ⟨mkStat p.1 p.2.Endpoint id isL found hash keys, ?_⟩
        rw [hstat]
        dsimp only
        rw [hback]
        exact aLookup_append_some p.1 _ _ _ hsome
  · rw [hstat]
  · rw [hstat]
    dsimp only
    rw [lastErrAux_none_iff]
    constructor
    · intro h p hp
      exact h (p.1, p.2.Endpoint) (hmemx p hp)
    · intro h x hx
      rw [hn2e] at hx
      obtain ⟨p, hp, rfl⟩ := List.mem_map.mp hx
      exact h p hp

/-- C2 witness: the concrete two-node cluster with one succeeding and
one failing probe instantiates every conclusion. -/
theorem status_complete_witness :
    (Cluster.Status clusterLive probesMixed).1.length = clusterLive.nodes.length ∧
    (∀ p ∈ clusterLive.nodes, ∃ s,
      aLookup p.1 (Cluster.Status clusterLive probesMixed).1 = some s) ∧
    (∀ p ∈ clusterLive.nodes, (probesMixed p.1).isFail = true →
      aLookup p.1 (Cluster.Status clusterLive probesMixed).1 =
        some { emptyStat with Name := p.1, Endpoint := p.2.Endpoint }) ∧
    (Cluster.Status clusterLive probesMixed).2 =
      lastErrAux probesMixed clusterLive.Endpoints.2 none ∧
    ((Cluster.Status clusterLive probesMixed).2 = none ↔
      ∀ p ∈ clusterLive.nodes, (probesMixed p.1).isFail = false) :=
  status_complete clusterLive probesMixed (by decide)
